import Mathlib

/-!
Verification of the frequency-training quiz engine: a shallow embedding of
the question generation, scoring, equal-loudness correction and session
aggregation code, together with theorems checking the specification's
statements against it.

Conventions of the embedding:
* JavaScript numbers that only ever undergo field arithmetic and comparisons
  are modelled as `ℚ` (every JS float value is rational), which keeps the
  corresponding definitions computable and decidable.
* Values that flow through `Math.exp` / `Math.log10` / `Math.pow` are
  modelled in `ℝ`.
* `Math.round` is `round : ℝ → ℤ` (Mathlib's `round x = ⌊x + 1/2⌋`, which
  matches JS `Math.round`'s floor-of-x-plus-half behaviour).
* The ambient `Math.random()` stream is modelled as an explicit function
  `rand : ℕ → ℝ` together with a running index; hypotheses state
  `0 ≤ rand n < 1`.
-/

namespace MathUtils

/-- `MathUtils.calculateError`: relative error `|actual - answer| / actual`,
with the defensive `actual === 0` branch returning 1. -/
def calculateError (actual answer : ℚ) : ℚ :=
  if actual = 0 then 1 else |actual - answer| / actual

/-- `MathUtils.clamp`: `Math.max(min, Math.min(max, value))`. -/
def clamp (value lo hi : ℚ) : ℚ :=
  max lo (min hi value)

/-- `MathUtils.lerp`: `a + (b - a) * t`. -/
noncomputable def lerp (a b t : ℝ) : ℝ :=
  a + (b - a) * t

/-- `MathUtils.linearToLog`: `Math.log10(Math.max(20, Math.min(20000, value)))`. -/
noncomputable def linearToLog (value : ℝ) : ℝ :=
  Real.logb 10 (max 20 (min 20000 value))

/-- `MathUtils.logToLinear`: `Math.round(Math.pow(10, logValue))`. -/
noncomputable def logToLinear (logValue : ℝ) : ℤ :=
  round ((10 : ℝ) ^ logValue)

/-- `MathUtils.randomLogFreq`: one log-uniform sample
`Math.round(Math.pow(10, log10 min + r * (log10 max - log10 min)))`,
where `r` is the `Math.random()` draw, passed explicitly. -/
noncomputable def randomLogFreq (r : ℝ) (lo hi : ℕ) : ℤ :=
  let logMin := Real.logb 10 (lo : ℝ)
  let logMax := Real.logb 10 (hi : ℝ)
  round ((10 : ℝ) ^ (logMin + r * (logMax - logMin)))

/-- `MathUtils.dbToGain`: `Math.pow(10, db / 20)`. -/
noncomputable def dbToGain (db : ℝ) : ℝ :=
  (10 : ℝ) ^ (db / 20)

end MathUtils

namespace ScoreCalculator

/-- Exponential score from an average error, as computed identically in
`calculateScore` and `calculateMultiScore`:
`Math.max(0, Math.min(100, Math.round(100 * Math.exp(-5 * error))))`. -/
noncomputable def scoreOfError (avgError : ℚ) : ℤ :=
  max 0 (min 100 (round ((100 : ℝ) * Real.exp (-(5 : ℝ) * (avgError : ℝ)))))

/-- Grade ladder from an average error, as computed identically in
`calculateScore` and `calculateMultiScore` (thresholds 1%, 5%, 10%, 20%). -/
def gradeOfError (avgError : ℚ) : String :=
  if avgError < 0.01 then "完璧!"
  else if avgError < 0.05 then "素晴らしい!"
  else if avgError < 0.10 then "良い!"
  else if avgError < 0.20 then "惜しい"
  else "要練習"

/-- The record returned by `ScoreCalculator.calculateMultiScore`
(`errors` and `avgError` are in percent, as in the source). -/
structure MultiScoreResult where
  score : ℤ
  grade : String
  errors : List ℚ
  avgError : ℚ
  isCorrect : Bool
  deriving Repr

/-- The `while (userAnswers.length < actualFreqs.length) userAnswers.push(1000)`
padding loop from `calculateMultiScore`. -/
def padLoop (n : ℕ) (answers : List ℚ) : List ℚ :=
  if answers.length < n then padLoop n (answers ++ [1000]) else answers
termination_by n - answers.length
decreasing_by simp; omega

/-- `ScoreCalculator.calculateMultiScore`.  After the padding loop the
answer list is at least as long as `actualFreqs`, so the source's
`actualFreqs.map((actual, index) => calculateError(actual, userAnswers[index]))`
is `List.zipWith calculateError` (zipping truncates at `actualFreqs.length`). -/
noncomputable def calculateMultiScore (actualFreqs userAnswers : List ℚ)
    (sortAnswers : Bool) : MultiScoreResult :=
  let padded := padLoop actualFreqs.length userAnswers
  -- if (sortAnswers && userAnswers.length === 3) sort ascending, on a copy
  let matched := if sortAnswers = true ∧ padded.length = 3
    then padded.insertionSort (· ≤ ·) else padded
  let errors := List.zipWith MathUtils.calculateError actualFreqs matched
  let avgError := errors.sum / (errors.length : ℚ)
  { score := scoreOfError avgError
    grade := gradeOfError avgError
    errors := errors.map (fun e => e * 100)
    avgError := avgError * 100
    isCorrect := decide (60 ≤ scoreOfError avgError) }

/-- The five reporting bands of `ScoreCalculator.getFrequencyRange`. -/
inductive RangeName where
  | ultraLow | low | mid | highMid | high
  deriving DecidableEq, Repr

/-- `ScoreCalculator.getFrequencyRange`: classify a frequency into one of the
five reporting bands (boundaries go to the higher band). -/
def getFrequencyRange (frequency : ℚ) : RangeName :=
  if frequency < 100 then .ultraLow
  else if frequency < 500 then .low
  else if frequency < 2000 then .mid
  else if frequency < 8000 then .highMid
  else .high

/-- One entry of the answer log consumed by `calculateSessionScore`.
`actualFreq` is the list of true frequencies (the source wraps a lone number
into a one-element array before use, so a list models both shapes); records
from the multi-frequency path carry `avgError`, single-frequency ones carry
`error`; the unused field of a record is 0 in practice. -/
structure SessionRecord where
  score : ℚ
  avgError : ℚ
  error : ℚ
  actualFreq : List ℚ
  deriving Repr

/-- One bucket of the `rangeStats` accumulator. -/
structure RangeStat where
  totalScore : ℚ
  count : ℕ
  deriving Repr

/-- The `rangeStats` object: one bucket per reporting band. -/
structure RangeStats where
  ultraLow : RangeStat
  low : RangeStat
  mid : RangeStat
  highMid : RangeStat
  high : RangeStat
  deriving Repr

/-- The all-zero initial `rangeStats`. -/
def RangeStats.init : RangeStats :=
  ⟨⟨0, 0⟩, ⟨0, 0⟩, ⟨0, 0⟩, ⟨0, 0⟩, ⟨0, 0⟩⟩

/-- Read the bucket of one band. -/
def RangeStats.get (st : RangeStats) : RangeName → RangeStat
  | .ultraLow => st.ultraLow
  | .low => st.low
  | .mid => st.mid
  | .highMid => st.highMid
  | .high => st.high

/-- `rangeStats[range].totalScore += score; rangeStats[range].count++`. -/
def RangeStats.add (st : RangeStats) (range : RangeName) (score : ℚ) : RangeStats :=
  match range with
  | .ultraLow => { st with ultraLow := ⟨st.ultraLow.totalScore + score, st.ultraLow.count + 1⟩ }
  | .low => { st with low := ⟨st.low.totalScore + score, st.low.count + 1⟩ }
  | .mid => { st with mid := ⟨st.mid.totalScore + score, st.mid.count + 1⟩ }
  | .highMid => { st with highMid := ⟨st.highMid.totalScore + score, st.highMid.count + 1⟩ }
  | .high => { st with high := ⟨st.high.totalScore + score, st.high.count + 1⟩ }

/-- The double `forEach` of `calculateSessionScore`: for every record, every
frequency of its `actualFreq` attributes the record's score to that
frequency's band. -/
def rangeStatsOf (records : List SessionRecord) : RangeStats :=
  records.foldl
    (fun st q => q.actualFreq.foldl
      (fun st freq => st.add (getFrequencyRange freq) q.score) st)
    RangeStats.init

/-- Per-band normalized accuracy: `count > 0 ? totalScore / count / 100 : 0`. -/
def RangeStat.accuracy (s : RangeStat) : ℚ :=
  if 0 < s.count then s.totalScore / (s.count : ℚ) / 100 else 0

/-- The value returned by `calculateSessionScore`.  The source formats
`avgError` with `toFixed(2)` for display; the numeric value is kept here. -/
structure SessionResult where
  totalScore : ℚ
  avgError : ℚ
  ultraLowAcc : ℚ
  lowAcc : ℚ
  midAcc : ℚ
  highMidAcc : ℚ
  highAcc : ℚ
  deriving Repr

/-- The `q.avgError || q.error || 0` read: JS `||` falls through on the
falsy number 0, so a zero `avgError` defers to `error`, and a zero `error`
yields 0. -/
def errorTerm (q : SessionRecord) : ℚ :=
  if q.avgError ≠ 0 then q.avgError else if q.error ≠ 0 then q.error else 0

/-- `ScoreCalculator.calculateSessionScore`.  `q.score || 0` equals
`q.score` for every (non-NaN) number, so the total is the plain sum. -/
def calculateSessionScore (records : List SessionRecord) : SessionResult :=
  let totalScore := records.foldl (fun sum q => sum + q.score) 0
  let avgError := records.foldl (fun sum q => sum + errorTerm q) 0 / (records.length : ℚ)
  let stats := rangeStatsOf records
  { totalScore := totalScore
    avgError := avgError
    ultraLowAcc := stats.ultraLow.accuracy
    lowAcc := stats.low.accuracy
    midAcc := stats.mid.accuracy
    highMidAcc := stats.highMid.accuracy
    highAcc := stats.high.accuracy }

end ScoreCalculator

namespace MathUtils

/-- One step of the Fisher–Yates body:
`[result[i], result[j]] = [result[j], result[i]]` (identity when an index is
out of bounds, which the shuffle loop never produces). -/
def swapIdx {α : Type*} (l : List α) (i j : ℕ) : List α :=
  match l[i]?, l[j]? with
  | some a, some b => (l.set i b).set j a
  | _, _ => l

/-- The Fisher–Yates loop of `MathUtils.shuffle`, counting `i` down from
`length - 1` to `1`, drawing `j = Math.floor(Math.random() * (i + 1))`;
`ri` is the position in the random stream, returned for threading. -/
noncomputable def shuffleAux {α : Type*} (rand : ℕ → ℝ) : ℕ → List α → ℕ → List α × ℕ
  | ri, l, 0 => (l, ri)
  | ri, l, i + 1 =>
    let j := (⌊rand ri * ((i + 2 : ℕ) : ℝ)⌋).toNat
    shuffleAux rand (ri + 1) (swapIdx l (i + 1) j) i

/-- `MathUtils.shuffle` (Fisher–Yates on a copy of the array). -/
noncomputable def shuffle {α : Type*} (rand : ℕ → ℝ) (ri : ℕ) (l : List α) : List α × ℕ :=
  shuffleAux rand ri l (l.length - 1)

end MathUtils

namespace QuestionGenerator

/-- One generation band of `QuestionGenerator.FREQUENCY_RANGES`:
`{ min, max, count }` in Hz. -/
structure FreqRange where
  min : ℕ
  max : ℕ
  count : ℕ
  deriving DecidableEq, Repr

/-- `QuestionGenerator.FREQUENCY_RANGES`, in the source's key order
(`Object.keys` iterates string keys in insertion order):
ultraLow, low, lowMid, mid, highMid, high, ultraHigh. -/
def FREQUENCY_RANGES : List FreqRange :=
  [⟨20, 80, 1⟩, ⟨80, 250, 2⟩, ⟨250, 500, 1⟩, ⟨500, 2000, 3⟩,
   ⟨2000, 6000, 2⟩, ⟨6000, 12000, 1⟩, ⟨12000, 20000, 1⟩]

/-- The three difficulty names the source's `DIFFICULTY` table is keyed by. -/
inductive Difficulty where
  | easy | medium | hard
  deriving DecidableEq, Repr

/-- One difficulty profile of `QuestionGenerator.DIFFICULTY`. -/
structure DifficultyConfig where
  freqCount : ℕ
  minFreqGap : ℚ
  equalLoudness : String
  stereo : Bool
  deriving Repr

/-- `QuestionGenerator.DIFFICULTY`. -/
def DIFFICULTY : Difficulty → DifficultyConfig
  | .easy => ⟨1, 1.5, "off", false⟩
  | .medium => ⟨2, 1.25, "off", true⟩
  | .hard => ⟨3, 1.1, "60", false⟩

/-- A generated question record. -/
structure Question where
  frequencies : List ℤ
  stereo : Bool
  waveform : String
  duration : ℕ
  equalLoudness : String
  deriving Repr

/-- The acceptance test of the retry loop: the candidate is not `tooClose`
(no already-chosen frequency of this question within `minFreqGap` ratio) and
is not in the `usedFrequencies` set.  The set is modelled by the list of its
elements (only membership is ever queried). -/
def freqOk (gap : ℚ) (chosen used : List ℤ) (c : ℤ) : Bool :=
  !(chosen.any fun f => decide ((((max f c : ℤ) : ℚ) / ((min f c : ℤ) : ℚ)) < gap))
    && !(used.contains c)

/-- The `do { ... } while (attempts < 100)` retry loop: sample, accept on the
spot if `ok`, otherwise retry while attempts remain; the final sample is
returned regardless.  `i` indexes the random stream, the returned `ℕ` is the
next unused position.  Fuel 0 is never used (the body runs at least once). -/
noncomputable def sampleLoop (rand : ℕ → ℝ) (lo hi : ℕ) (ok : ℤ → Bool) :
    ℕ → ℕ → ℤ × ℕ
  | i, 0 => (MathUtils.randomLogFreq (rand i) lo hi, i + 1)
  | i, 1 => (MathUtils.randomLogFreq (rand i) lo hi, i + 1)
  | i, fuel + 2 =>
    let c := MathUtils.randomLogFreq (rand i) lo hi
    if ok c then (c, i + 1) else sampleLoop rand lo hi ok (i + 1) (fuel + 1)

/-- `ranges[Math.floor(Math.random() * ranges.length)]`.  The fallback
default (never reached for `0 ≤ r < 1`) is the first band. -/
noncomputable def pickRange (r : ℝ) : FreqRange :=
  FREQUENCY_RANGES.getD (⌊r * (FREQUENCY_RANGES.length : ℝ)⌋).toNat ⟨20, 80, 1⟩

/-- The `for (let i = 0; i < config.freqCount; i++)` loop of
`generateQuestion`: per slot, pick a band, run the retry loop, then push the
accepted candidate onto both `frequencies` and `usedFrequencies`.
Returns (chosen frequencies, grown used set, next random index). -/
noncomputable def genFreqs (rand : ℕ → ℝ) (gap : ℚ) :
    ℕ → ℕ → List ℤ → List ℤ → List ℤ × List ℤ × ℕ
  | 0, i, chosen, used => (chosen, used, i)
  | slots + 1, i, chosen, used =>
    let range := pickRange (rand i)
    let r := sampleLoop rand range.min range.max (freqOk gap chosen used) (i + 1) 100
    genFreqs rand gap slots r.2 (chosen ++ [r.1]) (used ++ [r.1])

/-- `QuestionGenerator.generateQuestion`: generate `freqCount` frequencies,
sort ascending, reverse with probability 1/2 when the profile is stereo, and
attach the fixed waveform/duration/loudness fields. -/
noncomputable def generateQuestion (rand : ℕ → ℝ) (config : DifficultyConfig)
    (used : List ℤ) (i : ℕ) : Question × List ℤ × ℕ :=
  let g := genFreqs rand config.minFreqGap config.freqCount i [] used
  let sorted := g.1.insertionSort (· ≤ ·)
  let final := if config.stereo = true
    then (if rand g.2.2 < 0.5 then sorted.reverse else sorted, g.2.2 + 1)
    else (sorted, g.2.2)
  (⟨final.1, config.stereo, "sine", 10, config.equalLoudness⟩, g.2.1, final.2)

/-- The batch loop of `generateQuestions`.  After each question the source
runs `usedFrequencies.add(question.frequency)`; a question has no
`frequency` field, so that adds `undefined`, which never affects a
membership test of a number — the effective cross-question bookkeeping is
the per-frequency `add` inside `generateQuestion`, whose grown set is
threaded here. -/
noncomputable def generateQuestionsAux (rand : ℕ → ℝ) (config : DifficultyConfig) :
    ℕ → ℕ → List Question → List ℤ → List Question × ℕ
  | 0, i, qs, _ => (qs, i)
  | n + 1, i, qs, used =>
    let g := generateQuestion rand config used i
    generateQuestionsAux rand config n g.2.2 (qs ++ [g.1]) g.2.1

/-- `QuestionGenerator.generateQuestions`: build `count` questions, then
shuffle the batch.  `i` is the starting position in the random stream. -/
noncomputable def generateQuestions (rand : ℕ → ℝ) (difficulty : Difficulty)
    (count : ℕ) (i : ℕ) : List Question :=
  let g := generateQuestionsAux rand (DIFFICULTY difficulty) count i [] []
  (MathUtils.shuffle rand g.2 g.1).1

/-- Specification-side predicate (not part of the source): along the slot
recursion of `genFreqs`, every retry loop has some acceptable candidate
among its 100 draws — the documented relaxation is never needed. -/
def NoExhaust (rand : ℕ → ℝ) (gap : ℚ) : ℕ → ℕ → List ℤ → List ℤ → Prop
  | 0, _, _, _ => True
  | slots + 1, i, chosen, used =>
    let range := pickRange (rand i)
    let r := sampleLoop rand range.min range.max (freqOk gap chosen used) (i + 1) 100
    (∃ k, k < 100 ∧
      freqOk gap chosen used
        (MathUtils.randomLogFreq (rand (i + 1 + k)) range.min range.max) = true) ∧
    NoExhaust rand gap slots r.2 (chosen ++ [r.1]) (used ++ [r.1])

end QuestionGenerator

namespace EqualLoudness

/-- A loudness curve: frequency→dB pairs (the JSON object, keys parsed with
`parseFloat`; object keys are unique, so an association list models it). -/
abbrev Curve := List (ℚ × ℚ)

/-- `curve[f]`: read the dB value stored under key `f` (the source's
number-to-string key round-trip is the identity on the canonical keys of the
data file).  The `getD 0` default is never reached when `f` is a key. -/
def lookupDb (curve : Curve) (f : ℚ) : ℚ :=
  (curve.lookup f).getD 0

/-- The bracket-searching `for` loop of `interpolateCorrection`: the first
adjacent pair `freqPoints[i] ≤ frequency ≤ freqPoints[i+1]`, if any. -/
noncomputable def findBracket (frequency : ℝ) : List ℚ → Option (ℚ × ℚ)
  | p :: q :: rest =>
    if (p : ℝ) ≤ frequency ∧ frequency ≤ (q : ℝ) then some (p, q)
    else findBracket frequency (q :: rest)
  | _ => none

/-- `EqualLoudness.interpolateCorrection`: clamp to the curve's domain, else
find the bracketing pair and linearly interpolate dB in log10-frequency
space.  On an empty curve the source reads `undefined` and yields NaN;
that is modelled by the junk value 0 and excluded by every theorem's
hypotheses.  When the loop finds no bracket the source keeps its
initialisers `lowerFreq = freqPoints[0]`, `upperFreq = freqPoints[last]`,
modelled by `getD (fFirst, fLast)`. -/
noncomputable def interpolateCorrection (frequency : ℝ) (curve : Curve) : ℝ :=
  let freqPoints := (curve.map Prod.fst).insertionSort (· ≤ ·)
  let fFirst := freqPoints.getD 0 0
  let fLast := freqPoints.getD (freqPoints.length - 1) 0
  if frequency ≤ (fFirst : ℝ) then (lookupDb curve fFirst : ℝ)
  else if (fLast : ℝ) ≤ frequency then (lookupDb curve fLast : ℝ)
  else
    let bracket := (findBracket frequency freqPoints).getD (fFirst, fLast)
    let lowerDb := (lookupDb curve bracket.1 : ℝ)
    let upperDb := (lookupDb curve bracket.2 : ℝ)
    let t := (Real.logb 10 frequency - Real.logb 10 (bracket.1 : ℝ)) /
             (Real.logb 10 (bracket.2 : ℝ) - Real.logb 10 (bracket.1 : ℝ))
    MathUtils.lerp lowerDb upperDb t

/-- `EqualLoudness.getGain`.  `curves` is `null` before the data file loads
(`none` here); `phon` is `'off'`, `null`, or a phon level; a missing curve
for the requested key logs a warning and fails open to gain 1. -/
noncomputable def getGain (curves : Option (List (String × Curve)))
    (frequency : ℝ) (phon : Option String) : ℝ :=
  match curves, phon with
  | none, _ => 1
  | some _, none => 1
  | some cs, some p =>
    if p = "off" then 1
    else
      match cs.lookup (p ++ "_phon") with
      | none => 1
      | some curve => MathUtils.dbToGain (interpolateCorrection frequency curve)

end EqualLoudness

namespace ScoreCalculator

/-- Specification-side (from the claim's words): the arithmetic mean over
positional pairs of `|actual - answer| / actual`. -/
def claimedAvgError (actualFreqs userAnswers : List ℚ) : ℚ :=
  (List.zipWith (fun a u => |a - u| / a) actualFreqs userAnswers).sum /
    (actualFreqs.length : ℚ)

/-- Specification-side: position of a grade string on the quality ladder,
0 = best ("Perfect") to 4 = worst ("Needs practice"). -/
def gradeRank (grade : String) : ℕ :=
  if grade = "完璧!" then 0
  else if grade = "素晴らしい!" then 1
  else if grade = "良い!" then 2
  else if grade = "惜しい" then 3
  else 4

/-- Specification-side: the multiset of scores attributed to one reporting
band — every record contributes its score once per frequency of its
`actualFreq` list that falls in the band. -/
def attributedScores (band : RangeName) (records : List SessionRecord) : List ℚ :=
  records.flatMap fun q =>
    (q.actualFreq.filter fun f => getFrequencyRange f = band).map fun _ => q.score

/-- Specification-side: read the accuracy field of one reporting band. -/
def SessionResult.accOf (r : SessionResult) : RangeName → ℚ
  | .ultraLow => r.ultraLowAcc
  | .low => r.lowAcc
  | .mid => r.midAcc
  | .highMid => r.highMidAcc
  | .high => r.highAcc

end ScoreCalculator

/-- The padding loop is append-of-replicate: it pushes exactly
`n - length` copies of the 1000 Hz default. -/
theorem padLoop_eq_append (n : ℕ) (l : List ℚ) :
    ScoreCalculator.padLoop n l = l ++ List.replicate (n - l.length) 1000 := by
  generalize hk : n - l.length = k
  induction k generalizing l with
  | zero =>
    rw [ScoreCalculator.padLoop, if_neg (by omega)]
    simp [hk]
  | succ k ih =>
    rw [ScoreCalculator.padLoop, if_pos (by omega)]
    rw [ih (l ++ [1000]) (by simp; omega)]
    have h1 : n - l.length = k + 1 := hk
    simp [List.append_assoc, h1, List.replicate_succ]

/-- When every actual frequency is positive, the defensive zero branch of
`calculateError` is dead and the per-pair error is `|actual - answer| / actual`. -/
theorem zipWith_calculateError_of_pos (as us : List ℚ) (hpos : ∀ a ∈ as, 0 < a) :
    List.zipWith MathUtils.calculateError as us =
      List.zipWith (fun a u => |a - u| / a) as us := by
  induction as generalizing us with
  | nil => simp
  | cons a as ih =>
    cases us with
    | nil => simp
    | cons u us =>
      have ha : ¬a = 0 := ne_of_gt (hpos a (List.mem_cons_self a as))
      simp only [List.zipWith, MathUtils.calculateError, if_neg ha]
      rw [ih us fun x hx => hpos x (List.mem_cons_of_mem a hx)]

/-- Numeric bound used by the spec's worked example:
`Math.round(100 * Math.exp(-1.5)) = 22`. -/
theorem round_hundred_exp_neg_three_halves :
    round ((100 : ℝ) * Real.exp (-(3 / 2))) = 22 := by
  have h1 := Real.exp_one_gt_d9
  have h2 := Real.exp_one_lt_d9
  have he1 : (0 : ℝ) < Real.exp 1 := Real.exp_pos 1
  have e3 : Real.exp 3 = Real.exp 1 ^ 3 := by
    rw [← Real.exp_nat_mul]; norm_num
  have hsq : Real.exp (3 / 2) ^ 2 = Real.exp 3 := by
    rw [← Real.exp_nat_mul]; norm_num
  have hp : (0 : ℝ) < Real.exp (3 / 2) := Real.exp_pos _
  have c1 : (2.7182818283 : ℝ) ^ 3 < Real.exp 1 ^ 3 :=
    pow_lt_pow_left₀ h1 (by norm_num) (by norm_num)
  have c2 : Real.exp 1 ^ 3 < (2.7182818286 : ℝ) ^ 3 :=
    pow_lt_pow_left₀ h2 (le_of_lt he1) (by norm_num)
  have hx2l : (20.0704 : ℝ) < Real.exp (3 / 2) ^ 2 := by
    rw [hsq, e3]; nlinarith [c1]
  have hx2u : Real.exp (3 / 2) ^ 2 < (20.1601 : ℝ) := by
    rw [hsq, e3]; nlinarith [c2]
  have hl : (4.48 : ℝ) < Real.exp (3 / 2) := by
    by_contra h
    push_neg at h
    have := pow_le_pow_left₀ (le_of_lt hp) h 2
    nlinarith
  have hu : Real.exp (3 / 2) < 4.49 := by
    by_contra h
    push_neg at h
    have := pow_le_pow_left₀ (by norm_num : (0:ℝ) ≤ 4.49) h 2
    nlinarith
  rw [Real.exp_neg, round_eq, Int.floor_eq_iff]
  have hdiv : (100 : ℝ) * (Real.exp (3 / 2))⁻¹ = 100 / Real.exp (3 / 2) :=
    (div_eq_mul_inv 100 _).symm
  rw [hdiv]
  constructor
  · have hq : (21.5 : ℝ) * Real.exp (3 / 2) ≤ 100 := by linarith
    have h' : (21.5 : ℝ) ≤ 100 / Real.exp (3 / 2) := (le_div_iff₀ hp).mpr hq
    push_cast
    linarith
  · have hq : (100 : ℝ) < 22.5 * Real.exp (3 / 2) := by linarith
    have h' : (100 : ℝ) / Real.exp (3 / 2) < 22.5 := (div_lt_iff₀ hp).mpr hq
    push_cast
    linarith

/-- Closed forms of the scorer at the two worked examples' average errors. -/
theorem scoreOfError_zero : ScoreCalculator.scoreOfError 0 = 100 := by
  unfold ScoreCalculator.scoreOfError
  norm_num

/-- Score at average error 3/10: `round(100·e^(-1.5)) = 22`. -/
theorem scoreOfError_three_tenths : ScoreCalculator.scoreOfError (3 / 10) = 22 := by
  unfold ScoreCalculator.scoreOfError
  have hc : -(5 : ℝ) * ((3 / 10 : ℚ) : ℝ) = -(3 / 2) := by
    push_cast; ring
  rw [hc, round_hundred_exp_neg_three_halves]
  norm_num

/-- C9: for every frequency `f` in `[20, 20000]`, converting to the log10
scale and back recovers the rounded frequency:
`logToLinear (linearToLog f) = round f`. -/
theorem logToLinear_linearToLog_roundtrip (f : ℝ) (h1 : 20 ≤ f) (h2 : f ≤ 20000) :
    MathUtils.logToLinear (MathUtils.linearToLog f) = round f := by
  unfold MathUtils.logToLinear MathUtils.linearToLog
  rw [min_eq_right h2, max_eq_right h1,
    Real.rpow_logb (by norm_num) (by norm_num) (by linarith)]

/-- Witness for C9 at the concrete frequency 1000 Hz. -/
theorem logToLinear_linearToLog_roundtrip_witness :
    (20 : ℝ) ≤ 1000 ∧ (1000 : ℝ) ≤ 20000 ∧
      MathUtils.logToLinear (MathUtils.linearToLog 1000) = round (1000 : ℝ) :=
  ⟨by norm_num, by norm_num,
    logToLinear_linearToLog_roundtrip 1000 (by norm_num) (by norm_num)⟩

/-- C10: `getFrequencyRange` is total on every rational input, assigns each
boundary frequency to the higher band (100 → low, 500 → mid,
2000 → highMid, 8000 → high), and the five bands partition the line:
each band name is returned exactly on its half-open interval. -/
theorem getFrequencyRange_total_boundaries :
    ScoreCalculator.getFrequencyRange 100 = .low ∧
    ScoreCalculator.getFrequencyRange 500 = .mid ∧
    ScoreCalculator.getFrequencyRange 2000 = .highMid ∧
    ScoreCalculator.getFrequencyRange 8000 = .high ∧
    ∀ f : ℚ,
      (ScoreCalculator.getFrequencyRange f = .ultraLow ↔ f < 100) ∧
      (ScoreCalculator.getFrequencyRange f = .low ↔ 100 ≤ f ∧ f < 500) ∧
      (ScoreCalculator.getFrequencyRange f = .mid ↔ 500 ≤ f ∧ f < 2000) ∧
      (ScoreCalculator.getFrequencyRange f = .highMid ↔ 2000 ≤ f ∧ f < 8000) ∧
      (ScoreCalculator.getFrequencyRange f = .high ↔ 8000 ≤ f) := by
  refine ⟨by decide, by decide, by decide, by decide, fun f => ?_⟩
  unfold ScoreCalculator.getFrequencyRange
  split_ifs with h1 h2 h3 h4 <;>
    refine ⟨?_, ?_, ?_, ?_, ?_⟩ <;> simp <;>
      first | linarith | (intro h; linarith) | (constructor <;> linarith)

/-- Evaluation of the first worked example: a perfect single answer. -/
theorem calculateMultiScore_ex1 :
    ScoreCalculator.calculateMultiScore [1000] [1000] false =
      { score := 100, grade := "完璧!", errors := [0], avgError := 0,
        isCorrect := true } := by
  unfold ScoreCalculator.calculateMultiScore
  rw [ScoreCalculator.padLoop]
  norm_num [MathUtils.calculateError, ScoreCalculator.gradeOfError,
    scoreOfError_zero]

/-- Evaluation of the second worked example: answering 1300 for 1000. -/
theorem calculateMultiScore_ex2 :
    ScoreCalculator.calculateMultiScore [1000] [1300] false =
      { score := 22, grade := "要練習", errors := [30], avgError := 30,
        isCorrect := false } := by
  unfold ScoreCalculator.calculateMultiScore
  rw [ScoreCalculator.padLoop]
  norm_num [MathUtils.calculateError, ScoreCalculator.gradeOfError,
    scoreOfError_three_tenths]

/-- C1: for positive actual frequencies and an equal-length answer list,
`calculateMultiScore` returns `score = round(100·e^(-5·averageError))`
clamped to `[0, 100]`, where `averageError` is the mean over positional
pairs of `|actual - answer| / actual`; in particular the worked examples
`([1000], [1000])` (averageError 0, score 100, top grade) and
`([1000], [1300])` (averageError 0.30 — the returned `avgError` field is in
percent, hence 30 — score 22, bottom grade). -/
theorem calculateMultiScore_score_exponential (actualFreqs userAnswers : List ℚ)
    (hlen : userAnswers.length = actualFreqs.length)
    (hpos : ∀ a ∈ actualFreqs, 0 < a) :
    (ScoreCalculator.calculateMultiScore actualFreqs userAnswers false).score =
      max 0 (min 100 (round ((100 : ℝ) *
        Real.exp (-(5 : ℝ) *
          (ScoreCalculator.claimedAvgError actualFreqs userAnswers : ℝ))))) ∧
    (ScoreCalculator.calculateMultiScore [1000] [1000] false).score = 100 ∧
    (ScoreCalculator.calculateMultiScore [1000] [1000] false).grade = "完璧!" ∧
    (ScoreCalculator.calculateMultiScore [1000] [1300] false).score = 22 ∧
    (ScoreCalculator.calculateMultiScore [1000] [1300] false).grade = "要練習" ∧
    (ScoreCalculator.calculateMultiScore [1000] [1300] false).avgError = 30 := by
  refine ⟨?_, by rw [calculateMultiScore_ex1], by rw [calculateMultiScore_ex1],
    by rw [calculateMultiScore_ex2], by rw [calculateMultiScore_ex2],
    by rw [calculateMultiScore_ex2]⟩
  have hq : (List.zipWith MathUtils.calculateError actualFreqs userAnswers).sum /
        ((List.zipWith MathUtils.calculateError actualFreqs userAnswers).length : ℚ) =
      ScoreCalculator.claimedAvgError actualFreqs userAnswers := by
    rw [zipWith_calculateError_of_pos _ _ hpos, ScoreCalculator.claimedAvgError]
    congr 1
    rw [List.length_zipWith, hlen, min_self]
  unfold ScoreCalculator.calculateMultiScore
  dsimp only
  have hpad : ScoreCalculator.padLoop actualFreqs.length userAnswers = userAnswers := by
    rw [ScoreCalculator.padLoop, if_neg (by omega)]
  rw [hpad]
  simp only [Bool.false_eq_true, false_and, if_false]
  unfold ScoreCalculator.scoreOfError
  rw [hq]

/-- Witness for C1 at the concrete call `calculateMultiScore [1000] [1300] false`. -/
theorem calculateMultiScore_score_exponential_witness :
    ([1300] : List ℚ).length = ([1000] : List ℚ).length ∧
    (∀ a ∈ ([1000] : List ℚ), 0 < a) ∧
    (ScoreCalculator.calculateMultiScore [1000] [1300] false).score =
      max 0 (min 100 (round ((100 : ℝ) *
        Real.exp (-(5 : ℝ) * (ScoreCalculator.claimedAvgError [1000] [1300] : ℝ))))) :=
  ⟨rfl, by norm_num,
    (calculateMultiScore_score_exponential [1000] [1300] rfl (by norm_num)).1⟩

/-- C7: a user answer list shorter than the actual-frequency list is padded
with the fixed 1000 Hz default until the lengths match and then scored
normally (the call equals the call on the padded list); being a total
function, the scorer raises nothing on short input. -/
theorem calculateMultiScore_pads_short (actual answers : List ℚ) (s : Bool)
    (hshort : answers.length < actual.length) :
    ScoreCalculator.calculateMultiScore actual answers s =
      ScoreCalculator.calculateMultiScore actual
        (answers ++ List.replicate (actual.length - answers.length) 1000) s := by
  have hp : ScoreCalculator.padLoop actual.length answers =
      ScoreCalculator.padLoop actual.length
        (answers ++ List.replicate (actual.length - answers.length) 1000) := by
    rw [padLoop_eq_append, padLoop_eq_append]
    have hz : actual.length -
        (answers ++ List.replicate (actual.length - answers.length) 1000).length = 0 := by
      simp
      omega
    rw [hz]
    simp
  unfold ScoreCalculator.calculateMultiScore
  rw [hp]

/-- Witness for C7: one answer submitted for a two-frequency question. -/
theorem calculateMultiScore_pads_short_witness :
    ([500] : List ℚ).length < ([300, 1000] : List ℚ).length ∧
    ScoreCalculator.calculateMultiScore [300, 1000] [500] false =
      ScoreCalculator.calculateMultiScore [300, 1000]
        ([500] ++ List.replicate
          (([300, 1000] : List ℚ).length - ([500] : List ℚ).length) 1000) false :=
  ⟨by norm_num, calculateMultiScore_pads_short [300, 1000] [500] false (by norm_num)⟩

/-- C6: with `sortAnswers = true` and a 3-element answer list (for a
question with at most 3 frequencies, the only shape the flag is used with),
the result of `calculateMultiScore` is invariant under any permutation of
the user answers; at the worked example the sorted match gives average
error 0 while the same call with `sortAnswers = false` has a strictly
positive error (the `avgError` field is in percent). -/
theorem calculateMultiScore_sort_invariant (actual answers answers' : List ℚ)
    (hlen : answers.length = 3) (hact : actual.length ≤ 3)
    (hperm : answers'.Perm answers) :
    ScoreCalculator.calculateMultiScore actual answers' true =
      ScoreCalculator.calculateMultiScore actual answers true ∧
    (ScoreCalculator.calculateMultiScore [300, 1000, 3000]
      [3000, 300, 1000] true).avgError = 0 ∧
    0 < (ScoreCalculator.calculateMultiScore [300, 1000, 3000]
      [3000, 300, 1000] false).avgError := by
  have hlen' : answers'.length = 3 := hperm.length_eq.trans hlen
  refine ⟨?_, ?_, ?_⟩
  · have hsorteq : answers'.insertionSort (· ≤ ·) = answers.insertionSort (· ≤ ·) := by
      apply List.eq_of_perm_of_sorted
        ((List.perm_insertionSort _ answers').trans
          (hperm.trans (List.perm_insertionSort _ answers).symm))
        (List.sorted_insertionSort _ _) (List.sorted_insertionSort _ _)
    unfold ScoreCalculator.calculateMultiScore
    dsimp only
    rw [show ScoreCalculator.padLoop actual.length answers' = answers' from by
        rw [ScoreCalculator.padLoop, if_neg (by omega)],
      show ScoreCalculator.padLoop actual.length answers = answers from by
        rw [ScoreCalculator.padLoop, if_neg (by omega)],
      hlen', hlen, hsorteq]
    norm_num
  · unfold ScoreCalculator.calculateMultiScore
    rw [ScoreCalculator.padLoop]
    norm_num [MathUtils.calculateError, List.insertionSort, List.orderedInsert]
  · unfold ScoreCalculator.calculateMultiScore
    rw [ScoreCalculator.padLoop]
    norm_num [MathUtils.calculateError]

/-- Witness for C6 at the worked example's permutation. -/
theorem calculateMultiScore_sort_invariant_witness :
    ([3000, 300, 1000] : List ℚ).length = 3 ∧
    ([300, 1000, 3000] : List ℚ).length ≤ 3 ∧
    ([3000, 300, 1000] : List ℚ).Perm [300, 1000, 3000] ∧
    ScoreCalculator.calculateMultiScore [300, 1000, 3000] [3000, 300, 1000] true =
      ScoreCalculator.calculateMultiScore [300, 1000, 3000] [300, 1000, 3000] true :=
  ⟨rfl, by norm_num, by decide,
    (calculateMultiScore_sort_invariant [300, 1000, 3000] [300, 1000, 3000]
      [3000, 300, 1000] rfl (by norm_num) (by decide)).1⟩

/-- The grade ladder position as a function of the error thresholds. -/
theorem gradeRank_gradeOfError (e : ℚ) :
    ScoreCalculator.gradeRank (ScoreCalculator.gradeOfError e) =
      if e < 0.01 then 0 else if e < 0.05 then 1 else if e < 0.10 then 2
      else if e < 0.20 then 3 else 4 := by
  unfold ScoreCalculator.gradeOfError
  split_ifs <;> decide

/-- C8: the grade is a function of the average error alone through the fixed
thresholds 1% / 5% / 10% / 20%; the grade tier worsens monotonically and the
numeric score is non-increasing as the average error grows; and the
`isCorrect` flag holds exactly when `score ≥ 60`.  (Grade strings: 完璧! =
"Perfect", 素晴らしい! = "Excellent", 良い! = "Good", 惜しい = "Close",
要練習 = "Needs practice"; the result's `avgError` field is in percent, so
the error fraction is `avgError / 100`.) -/
theorem grade_thresholds_monotone_isCorrect :
    (∀ a u : List ℚ, ∀ s : Bool,
      (ScoreCalculator.calculateMultiScore a u s).grade =
        ScoreCalculator.gradeOfError
          ((ScoreCalculator.calculateMultiScore a u s).avgError / 100) ∧
      ((ScoreCalculator.calculateMultiScore a u s).isCorrect = true ↔
        60 ≤ (ScoreCalculator.calculateMultiScore a u s).score)) ∧
    (∀ e : ℚ,
      (ScoreCalculator.gradeOfError e = "完璧!" ↔ e < 0.01) ∧
      (ScoreCalculator.gradeOfError e = "素晴らしい!" ↔ 0.01 ≤ e ∧ e < 0.05) ∧
      (ScoreCalculator.gradeOfError e = "良い!" ↔ 0.05 ≤ e ∧ e < 0.10) ∧
      (ScoreCalculator.gradeOfError e = "惜しい" ↔ 0.10 ≤ e ∧ e < 0.20) ∧
      (ScoreCalculator.gradeOfError e = "要練習" ↔ 0.20 ≤ e)) ∧
    (∀ e1 e2 : ℚ, e1 ≤ e2 →
      ScoreCalculator.gradeRank (ScoreCalculator.gradeOfError e1) ≤
        ScoreCalculator.gradeRank (ScoreCalculator.gradeOfError e2)) ∧
    (∀ e1 e2 : ℚ, e1 ≤ e2 →
      ScoreCalculator.scoreOfError e2 ≤ ScoreCalculator.scoreOfError e1) := by
  refine ⟨fun a u s => ⟨?_, ?_⟩, fun e => ?_, fun e1 e2 h => ?_, fun e1 e2 h => ?_⟩
  · unfold ScoreCalculator.calculateMultiScore
    dsimp only
    rw [mul_div_assoc, div_self (by norm_num : (100 : ℚ) ≠ 0), mul_one]
  · unfold ScoreCalculator.calculateMultiScore
    dsimp only
    simp
  · unfold ScoreCalculator.gradeOfError
    split_ifs with h1 h2 h3 h4 <;>
      refine ⟨?_, ?_, ?_, ?_, ?_⟩ <;> simp <;>
        first | linarith | (intro hx; linarith) | (constructor <;> linarith)
  · rw [gradeRank_gradeOfError, gradeRank_gradeOfError]
    split_ifs <;> first | omega | linarith
  · unfold ScoreCalculator.scoreOfError
    have hexp : (100 : ℝ) * Real.exp (-(5 : ℝ) * (e2 : ℝ)) ≤
        (100 : ℝ) * Real.exp (-(5 : ℝ) * (e1 : ℝ)) := by
      have : (e1 : ℝ) ≤ (e2 : ℝ) := by exact_mod_cast h
      have := Real.exp_le_exp.mpr (by linarith : -(5 : ℝ) * (e2 : ℝ) ≤ -(5 : ℝ) * (e1 : ℝ))
      linarith
    have hr : round ((100 : ℝ) * Real.exp (-(5 : ℝ) * (e2 : ℝ))) ≤
        round ((100 : ℝ) * Real.exp (-(5 : ℝ) * (e1 : ℝ))) := by
      rw [round_eq, round_eq]
      exact Int.floor_le_floor (by linarith)
    exact max_le_max le_rfl (min_le_min le_rfl hr)

/-- Witness for C8's monotonicity conjuncts at the pair (0, 3/10). -/
theorem grade_thresholds_monotone_isCorrect_witness :
    (0 : ℚ) ≤ 3 / 10 ∧
    ScoreCalculator.gradeRank (ScoreCalculator.gradeOfError 0) ≤
      ScoreCalculator.gradeRank (ScoreCalculator.gradeOfError (3 / 10)) ∧
    ScoreCalculator.scoreOfError (3 / 10) ≤ ScoreCalculator.scoreOfError 0 :=
  ⟨by norm_num,
    grade_thresholds_monotone_isCorrect.2.2.1 0 (3 / 10) (by norm_num),
    grade_thresholds_monotone_isCorrect.2.2.2 0 (3 / 10) (by norm_num)⟩

/-- Bucket view of one `rangeStats` update: the addressed band's bucket is
bumped, the others are unchanged. -/
theorem RangeStats_add_get (st : ScoreCalculator.RangeStats)
    (rn band : ScoreCalculator.RangeName) (sc : ℚ) :
    (st.add rn sc).get band =
      if rn = band
      then ⟨(st.get band).totalScore + sc, (st.get band).count + 1⟩
      else st.get band := by
  cases rn <;> cases band <;>
    simp [ScoreCalculator.RangeStats.add, ScoreCalculator.RangeStats.get]

/-- Bucket view of one record's inner `forEach`: the record's score enters a
band once per frequency of the record falling in that band. -/
theorem freqFold_get (freqs : List ℚ) (st : ScoreCalculator.RangeStats)
    (sc : ℚ) (band : ScoreCalculator.RangeName) :
    (freqs.foldl (fun st freq =>
        st.add (ScoreCalculator.getFrequencyRange freq) sc) st).get band =
      ⟨(st.get band).totalScore + sc *
          (((freqs.filter fun f =>
            ScoreCalculator.getFrequencyRange f = band).length : ℚ)),
        (st.get band).count +
          (freqs.filter fun f =>
            ScoreCalculator.getFrequencyRange f = band).length⟩ := by
  induction freqs generalizing st with
  | nil => simp
  | cons f fs ih =>
    rw [List.foldl_cons, ih, RangeStats_add_get]
    by_cases hf : ScoreCalculator.getFrequencyRange f = band
    · rw [if_pos hf, List.filter_cons_of_pos (by simp [hf]), List.length_cons]
      dsimp only
      refine congrArg₂ ScoreCalculator.RangeStat.mk ?_ (by omega)
      push_cast
      ring
    · rw [if_neg hf, List.filter_cons_of_neg (by simp [hf])]

/-- Bucket view of the whole double fold of `calculateSessionScore`. -/
theorem sessionFold_get (records : List ScoreCalculator.SessionRecord)
    (st : ScoreCalculator.RangeStats) (band : ScoreCalculator.RangeName) :
    (records.foldl (fun st q => q.actualFreq.foldl
        (fun st freq =>
          st.add (ScoreCalculator.getFrequencyRange freq) q.score) st) st).get band =
      ⟨(st.get band).totalScore + (ScoreCalculator.attributedScores band records).sum,
        (st.get band).count +
          (ScoreCalculator.attributedScores band records).length⟩ := by
  induction records generalizing st with
  | nil => simp [ScoreCalculator.attributedScores]
  | cons q qs ih =>
    rw [List.foldl_cons, ih, freqFold_get]
    simp only [ScoreCalculator.attributedScores, List.flatMap_cons]
    refine congrArg₂ ScoreCalculator.RangeStat.mk ?_ ?_
    · rw [List.sum_append]
      have hmap : ((q.actualFreq.filter fun f =>
          ScoreCalculator.getFrequencyRange f = band).map fun _ => q.score).sum =
          q.score * (((q.actualFreq.filter fun f =>
            ScoreCalculator.getFrequencyRange f = band).length : ℚ)) := by
        rw [List.map_const', List.sum_replicate, nsmul_eq_mul]
        ring
      rw [hmap]
      ring
    · rw [List.length_append, List.length_map]
      omega

/-- The final `rangeStats` equals per band the sum and count of the
attributed scores. -/
theorem rangeStatsOf_get (records : List ScoreCalculator.SessionRecord)
    (band : ScoreCalculator.RangeName) :
    (ScoreCalculator.rangeStatsOf records).get band =
      ⟨(ScoreCalculator.attributedScores band records).sum,
        (ScoreCalculator.attributedScores band records).length⟩ := by
  rw [ScoreCalculator.rangeStatsOf, sessionFold_get]
  cases band <;>
    simp [ScoreCalculator.RangeStats.init, ScoreCalculator.RangeStats.get]

/-- The total-score fold is the plain sum. -/
theorem foldl_score_sum (records : List ScoreCalculator.SessionRecord) (c : ℚ) :
    records.foldl (fun sum q => sum + q.score) c =
      c + (records.map fun q => q.score).sum := by
  induction records generalizing c with
  | nil => simp
  | cons q qs ih =>
    rw [List.foldl_cons, ih]
    simp
    ring

/-- `accuracy` written with the zero-count test first. -/
theorem accuracy_eq (s : ScoreCalculator.RangeStat) :
    s.accuracy = if s.count = 0 then 0
      else s.totalScore / (s.count : ℚ) / 100 := by
  rw [ScoreCalculator.RangeStat.accuracy]
  split_ifs <;> first | rfl | (exfalso; omega)

/-- Evaluation of the session-aggregation worked example. -/
theorem sessionScore_example_eval :
    ScoreCalculator.calculateSessionScore
      [⟨80, 20, 0, [50]⟩, ⟨60, 40, 0, [1500]⟩] =
      ⟨140, 30, 8 / 10, 0, 6 / 10, 0, 0⟩ := by
  unfold ScoreCalculator.calculateSessionScore ScoreCalculator.rangeStatsOf
    ScoreCalculator.errorTerm
  norm_num [List.foldl, ScoreCalculator.RangeStats.add, ScoreCalculator.RangeStats.init,
    ScoreCalculator.getFrequencyRange, ScoreCalculator.RangeStat.accuracy]

/-- C4: `calculateSessionScore` returns the unclamped sum of the records'
scores as `totalScore`, and per reporting band an accuracy equal to the mean
of the scores attributed to the band (one attribution per frequency of each
record's `actualFreq` list) divided by 100, with 0 (never NaN) for a band
with no attributed occurrence; at the worked example (scores 80 on [50 Hz]
and 60 on [1500 Hz]) the totals are 140, ultraLow 0.8, mid 0.6, rest 0. -/
theorem calculateSessionScore_spec (records : List ScoreCalculator.SessionRecord) :
    (ScoreCalculator.calculateSessionScore records).totalScore =
      (records.map fun q => q.score).sum ∧
    (∀ band : ScoreCalculator.RangeName,
      (ScoreCalculator.calculateSessionScore records).accOf band =
        if (ScoreCalculator.attributedScores band records).length = 0 then 0
        else (ScoreCalculator.attributedScores band records).sum /
          ((ScoreCalculator.attributedScores band records).length : ℚ) / 100) ∧
    (ScoreCalculator.calculateSessionScore
      [⟨80, 20, 0, [50]⟩, ⟨60, 40, 0, [1500]⟩]).totalScore = 140 ∧
    (ScoreCalculator.calculateSessionScore
      [⟨80, 20, 0, [50]⟩, ⟨60, 40, 0, [1500]⟩]).accOf .ultraLow = 8 / 10 ∧
    (ScoreCalculator.calculateSessionScore
      [⟨80, 20, 0, [50]⟩, ⟨60, 40, 0, [1500]⟩]).accOf .mid = 6 / 10 ∧
    (ScoreCalculator.calculateSessionScore
      [⟨80, 20, 0, [50]⟩, ⟨60, 40, 0, [1500]⟩]).accOf .low = 0 ∧
    (ScoreCalculator.calculateSessionScore
      [⟨80, 20, 0, [50]⟩, ⟨60, 40, 0, [1500]⟩]).accOf .highMid = 0 ∧
    (ScoreCalculator.calculateSessionScore
      [⟨80, 20, 0, [50]⟩, ⟨60, 40, 0, [1500]⟩]).accOf .high = 0 := by
  refine ⟨?_, ?_,
    by rw [sessionScore_example_eval],
    by rw [sessionScore_example_eval]; rfl,
    by rw [sessionScore_example_eval]; rfl,
    by rw [sessionScore_example_eval]; rfl,
    by rw [sessionScore_example_eval]; rfl,
    by rw [sessionScore_example_eval]; rfl⟩
  · unfold ScoreCalculator.calculateSessionScore
    dsimp only
    rw [foldl_score_sum]
    ring
  · intro band
    unfold ScoreCalculator.calculateSessionScore
    dsimp only
    have h := rangeStatsOf_get records band
    cases band <;>
      simp only [ScoreCalculator.RangeStats.get] at h <;>
      simp only [ScoreCalculator.SessionResult.accOf] <;>
      rw [h, accuracy_eq]

/-- In an association list with pairwise-distinct keys, looking up the i-th
key returns the i-th value. -/
theorem lookup_get_of_nodup :
    ∀ (curve : List (ℚ × ℚ)), (curve.map Prod.fst).Nodup →
      ∀ (i : ℕ) (hi : i < curve.length),
        curve.lookup (curve[i].1) = some (curve[i].2) := by
  intro curve
  induction curve with
  | nil => intro _ i hi; simp at hi
  | cons kv rest ih =>
    obtain ⟨k, v⟩ := kv
    intro hnd i hi
    cases i with
    | zero => simp
    | succ i =>
      have hi' : i < rest.length := by simpa using hi
      have hnd0 : (k :: rest.map Prod.fst).Nodup := by
        simpa only [List.map_cons] using hnd
      have hnd' := List.nodup_cons.mp hnd0
      have hne2 : rest[i].1 ≠ k := by
        intro he
        exact hnd'.1 (he ▸ List.mem_map_of_mem Prod.fst (List.getElem_mem hi'))
      simp only [List.getElem_cons_succ, List.lookup_cons, beq_false_of_ne hne2]
      exact ih hnd'.2 i hi'

/-- The bracket-search loop finds an adjacent pair around `f` whenever `f`
lies strictly between the first and the last point. -/
theorem findBracket_spec (f : ℝ) :
    ∀ (l : List ℚ) (hne : l ≠ []),
      ((l.head hne : ℚ) : ℝ) < f → f < ((l.getLast hne : ℚ) : ℝ) →
      ∃ (i : ℕ) (h : i + 1 < l.length),
        ((l[i] : ℚ) : ℝ) ≤ f ∧ f ≤ ((l[i + 1] : ℚ) : ℝ) ∧
        EqualLoudness.findBracket f l = some (l[i], l[i + 1]) := by
  intro l
  induction l with
  | nil => intro hne; exact absurd rfl hne
  | cons x rest ih =>
    intro hne h1 h2
    cases rest with
    | nil =>
      simp only [List.head_cons] at h1
      simp only [List.getLast_singleton] at h2
      linarith
    | cons y rest2 =>
      simp only [List.head_cons] at h1
      by_cases hy : f ≤ (y : ℝ)
      · refine ⟨0, by simp, by simpa using le_of_lt h1, by simpa using hy, ?_⟩
        rw [EqualLoudness.findBracket, if_pos ⟨le_of_lt h1, hy⟩]
        rfl
      · push_neg at hy
        have hlast : (x :: y :: rest2).getLast hne = (y :: rest2).getLast (by simp) :=
          List.getLast_cons (by simp)
        rw [hlast] at h2
        obtain ⟨i, hlen, ha, hb, hfind⟩ := ih (by simp) (by simpa using hy) h2
        refine ⟨i + 1, by simpa using hlen, by simpa using ha, by simpa using hb, ?_⟩
        rw [EqualLoudness.findBracket, if_neg (fun hc => absurd hc.2 (not_le.mpr hy))]
        simpa using hfind

/-- `getD 0` of a nonempty list is its head. -/
theorem getD_zero_head (l : List ℚ) (h : l ≠ []) (d : ℚ) : l.getD 0 d = l.head h := by
  cases l with
  | nil => exact absurd rfl h
  | cons a t => rfl

/-- `getD (length - 1)` of a nonempty list is its last element. -/
theorem getD_last (l : List ℚ) (h : l ≠ []) (d : ℚ) :
    l.getD (l.length - 1) d = l.getLast h := by
  have hlt : l.length - 1 < l.length := by
    cases l with
    | nil => exact absurd rfl h
    | cons a t => simp
  rw [List.getD_eq_getElem?_getD, List.getElem?_eq_getElem hlt,
    List.getLast_eq_getElem]
  rfl

/-- C5: `getGain` returns 1.0 when the mode is `off`, when the curve data is
unavailable, or when the requested phon curve is absent (never an error);
otherwise it clamps the frequency to the curve's domain — outside the domain
the nearest endpoint's dB is used — and inside it linearly interpolates dB
between the bracketing points in log10-frequency space with
`t = (log10 f - log10 f_lo) / (log10 f_hi - log10 f_lo)`, returning the
linear gain `10^(dB/20)`. -/
theorem getGain_spec :
    (∀ (f : ℝ) (phon : Option String),
      EqualLoudness.getGain none f phon = 1) ∧
    (∀ (cs : List (String × EqualLoudness.Curve)) (f : ℝ),
      EqualLoudness.getGain (some cs) f none = 1 ∧
      EqualLoudness.getGain (some cs) f (some "off") = 1) ∧
    (∀ (cs : List (String × EqualLoudness.Curve)) (f : ℝ) (p : String),
      p ≠ "off" → cs.lookup (p ++ "_phon") = none →
      EqualLoudness.getGain (some cs) f (some p) = 1) ∧
    (∀ (cs : List (String × EqualLoudness.Curve)) (f : ℝ) (p : String)
      (curve : EqualLoudness.Curve), p ≠ "off" →
      cs.lookup (p ++ "_phon") = some curve →
      List.Chain' (· < ·) (curve.map Prod.fst) →
      ∀ (hne : curve ≠ []),
      (f ≤ ((curve.head hne).1 : ℝ) →
        EqualLoudness.getGain (some cs) f (some p) =
          MathUtils.dbToGain ((curve.head hne).2 : ℝ)) ∧
      (((curve.getLast hne).1 : ℝ) ≤ f →
        EqualLoudness.getGain (some cs) f (some p) =
          MathUtils.dbToGain ((curve.getLast hne).2 : ℝ)) ∧
      (((curve.head hne).1 : ℝ) < f → f < ((curve.getLast hne).1 : ℝ) →
        ∃ (i : ℕ) (h : i + 1 < curve.length),
          ((curve[i].1 : ℚ) : ℝ) ≤ f ∧ f ≤ ((curve[i + 1].1 : ℚ) : ℝ) ∧
          EqualLoudness.getGain (some cs) f (some p) =
            MathUtils.dbToGain (MathUtils.lerp ((curve[i].2 : ℚ) : ℝ)
              ((curve[i + 1].2 : ℚ) : ℝ)
              ((Real.logb 10 f - Real.logb 10 ((curve[i].1 : ℚ) : ℝ)) /
                (Real.logb 10 ((curve[i + 1].1 : ℚ) : ℝ) -
                  Real.logb 10 ((curve[i].1 : ℚ) : ℝ)))))) := by
  refine ⟨fun f phon => rfl, fun cs f => ⟨rfl, rfl⟩, ?_, ?_⟩
  · intro cs f p hp hnone
    unfold EqualLoudness.getGain
    dsimp only
    rw [if_neg hp, hnone]
  · intro cs f p curve hp hcv hchain hne
    have hmne : curve.map Prod.fst ≠ [] := by simpa using hne
    have hpair : List.Pairwise (· < ·) (curve.map Prod.fst) :=
      List.chain'_iff_pairwise.mp hchain
    have hsortedLE : List.Sorted (· ≤ ·) (curve.map Prod.fst) :=
      hpair.imp le_of_lt
    have hnd : (curve.map Prod.fst).Nodup := hpair.imp ne_of_lt
    have hfp : (curve.map Prod.fst).insertionSort (· ≤ ·) = curve.map Prod.fst :=
      hsortedLE.insertionSort_eq
    have hg : EqualLoudness.getGain (some cs) f (some p) =
        MathUtils.dbToGain (EqualLoudness.interpolateCorrection f curve) := by
      unfold EqualLoudness.getGain
      dsimp only
      rw [if_neg hp, hcv]
    have hlen0 : 0 < curve.length := List.length_pos.mpr hne
    have hhead : (curve.map Prod.fst).head hmne = (curve.head hne).1 := by
      simp
    have hlastm : (curve.map Prod.fst).getLast hmne = (curve.getLast hne).1 := by
      simp
    have hfirstD : (curve.map Prod.fst).getD 0 0 = (curve.head hne).1 := by
      rw [getD_zero_head _ hmne, hhead]
    have hlastD : (curve.map Prod.fst).getD ((curve.map Prod.fst).length - 1) 0 =
        (curve.getLast hne).1 := by
      rw [getD_last _ hmne, hlastm]
    refine ⟨?_, ?_, ?_⟩
    · intro hle
      rw [hg]
      unfold EqualLoudness.interpolateCorrection
      dsimp only
      rw [hfp, hfirstD, if_pos hle]
      unfold EqualLoudness.lookupDb
      rw [List.head_eq_getElem curve hne, lookup_get_of_nodup curve hnd 0 hlen0]
      rfl
    · intro hge
      rw [hg]
      unfold EqualLoudness.interpolateCorrection
      dsimp only
      rw [hfp, hfirstD, hlastD]
      by_cases hle : f ≤ ((curve.head hne).1 : ℝ)
      · rw [if_pos hle]
        have hone : curve.length = 1 := by
          by_contra hc
          have h01 : ((curve.map Prod.fst).head hmne : ℚ) <
              (curve.map Prod.fst).getLast hmne := by
            have hx := (List.pairwise_iff_getElem.mp hpair) 0
              ((curve.map Prod.fst).length - 1)
              (by simp; omega) (by simp; omega) (by simp; omega)
            rw [List.head_eq_getElem, List.getLast_eq_getElem]
            exact hx
          rw [hhead, hlastm] at h01
          have hr : ((curve.head hne).1 : ℝ) < ((curve.getLast hne).1 : ℝ) := by
            exact_mod_cast h01
          linarith
        have hhl : curve.head hne = curve.getLast hne := by
          rw [List.head_eq_getElem, List.getLast_eq_getElem]
          congr 1
          omega
        rw [hhl]
        unfold EqualLoudness.lookupDb
        rw [List.getLast_eq_getElem,
          lookup_get_of_nodup curve hnd (curve.length - 1) (by omega)]
        rfl
      · rw [if_neg hle, if_pos hge]
        unfold EqualLoudness.lookupDb
        rw [List.getLast_eq_getElem,
          lookup_get_of_nodup curve hnd (curve.length - 1) (by omega)]
        rfl
    · intro hlt1 hlt2
      have hlt1' : (((curve.map Prod.fst).head hmne : ℚ) : ℝ) < f := by
        rw [hhead]; exact hlt1
      have hlt2' : f < (((curve.map Prod.fst).getLast hmne : ℚ) : ℝ) := by
        rw [hlastm]; exact hlt2
      obtain ⟨i, hlen, ha, hb, hfind⟩ :=
        findBracket_spec f (curve.map Prod.fst) hmne hlt1' hlt2'
      have hmi : i + 1 < curve.length := by simpa using hlen
      refine ⟨i, hmi, ?_, ?_, ?_⟩
      · have := ha
        rw [List.getElem_map] at this
        exact this
      · have := hb
        rw [List.getElem_map] at this
        exact this
      · rw [hg]
        unfold EqualLoudness.interpolateCorrection
        dsimp only
        rw [hfp, hfirstD, hlastD,
          if_neg (not_le.mpr hlt1), if_neg (not_le.mpr hlt2), hfind]
        simp only [Option.getD_some]
        unfold EqualLoudness.lookupDb
        rw [List.getElem_map, List.getElem_map,
          lookup_get_of_nodup curve hnd i (by omega),
          lookup_get_of_nodup curve hnd (i + 1) hmi]
        rfl

/-- Witness for C5 at the spec's example curve `{100: -10, 1000: 0}`: a
frequency below the domain clamps to the low endpoint's dB. -/
theorem getGain_spec_witness :
    EqualLoudness.getGain
      (some [("60_phon", [((100 : ℚ), (-10 : ℚ)), (1000, 0)])]) 10 (some "60") =
      MathUtils.dbToGain
        ((((([((100 : ℚ), (-10 : ℚ)), (1000, 0)] : EqualLoudness.Curve).head
          (by simp)).2 : ℚ)) : ℝ) :=
  (getGain_spec.2.2.2 [("60_phon", [((100 : ℚ), (-10 : ℚ)), (1000, 0)])] 10 "60"
    [(100, -10), (1000, 0)] (by decide) (by decide)
    (by norm_num [List.chain'_cons]) (by simp)).1 (by norm_num)

/-- `round` is monotone. -/
theorem round_mono_le (x y : ℝ) (h : x ≤ y) : round x ≤ round y := by
  rw [round_eq, round_eq]
  exact Int.floor_le_floor (by linarith)

/-- A log-uniform sample with `0 ≤ r < 1` stays inside the band `[lo, hi]`. -/
theorem randomLogFreq_mem (r : ℝ) (hr0 : 0 ≤ r) (hr1 : r < 1) (lo hi : ℕ)
    (hlo : 0 < lo) (hle : lo ≤ hi) :
    (lo : ℤ) ≤ MathUtils.randomLogFreq r lo hi ∧
      MathUtils.randomLogFreq r lo hi ≤ (hi : ℤ) := by
  unfold MathUtils.randomLogFreq
  dsimp only
  have hloR : (0 : ℝ) < (lo : ℝ) := by exact_mod_cast hlo
  have hleR : (lo : ℝ) ≤ (hi : ℝ) := by exact_mod_cast hle
  have hspan : Real.logb 10 (lo : ℝ) ≤ Real.logb 10 (hi : ℝ) :=
    Real.logb_le_logb_of_le (by norm_num) hloR hleR
  have hex1 : Real.logb 10 (lo : ℝ) ≤
      Real.logb 10 (lo : ℝ) + r * (Real.logb 10 (hi : ℝ) - Real.logb 10 (lo : ℝ)) := by
    nlinarith
  have hex2 : Real.logb 10 (lo : ℝ) + r * (Real.logb 10 (hi : ℝ) - Real.logb 10 (lo : ℝ)) ≤
      Real.logb 10 (hi : ℝ) := by
    nlinarith
  have hp1 : (lo : ℝ) ≤
      (10 : ℝ) ^ (Real.logb 10 (lo : ℝ) + r * (Real.logb 10 (hi : ℝ) - Real.logb 10 (lo : ℝ))) := by
    calc (lo : ℝ) = (10 : ℝ) ^ Real.logb 10 (lo : ℝ) :=
          (Real.rpow_logb (by norm_num) (by norm_num) hloR).symm
      _ ≤ _ := (Real.rpow_le_rpow_left_iff (by norm_num)).mpr hex1
  have hp2 : (10 : ℝ) ^ (Real.logb 10 (lo : ℝ) + r * (Real.logb 10 (hi : ℝ) - Real.logb 10 (lo : ℝ))) ≤
      (hi : ℝ) := by
    calc (10 : ℝ) ^ (Real.logb 10 (lo : ℝ) + r * (Real.logb 10 (hi : ℝ) - Real.logb 10 (lo : ℝ)))
        ≤ (10 : ℝ) ^ Real.logb 10 (hi : ℝ) :=
          (Real.rpow_le_rpow_left_iff (by norm_num)).mpr hex2
      _ = (hi : ℝ) := Real.rpow_logb (by norm_num) (by norm_num) (by linarith)
  constructor
  · have := round_mono_le _ _ hp1
    rwa [round_natCast] at this
  · have := round_mono_le _ _ hp2
    rwa [round_natCast] at this

/-- The uniformly drawn band index hits one of the seven generation bands. -/
theorem pickRange_mem (r : ℝ) (hr0 : 0 ≤ r) (hr1 : r < 1) :
    QuestionGenerator.pickRange r ∈ QuestionGenerator.FREQUENCY_RANGES := by
  unfold QuestionGenerator.pickRange
  have hlen : (QuestionGenerator.FREQUENCY_RANGES.length : ℝ) = 7 := by norm_num [QuestionGenerator.FREQUENCY_RANGES]
  have hflt : ⌊r * (QuestionGenerator.FREQUENCY_RANGES.length : ℝ)⌋ < 7 := by
    rw [hlen]
    exact Int.floor_lt.mpr (by push_cast; nlinarith)
  have hfnn : 0 ≤ ⌊r * (QuestionGenerator.FREQUENCY_RANGES.length : ℝ)⌋ := by
    rw [hlen]
    exact Int.floor_nonneg.mpr (by nlinarith)
  have hidx : (⌊r * (QuestionGenerator.FREQUENCY_RANGES.length : ℝ)⌋).toNat <
      QuestionGenerator.FREQUENCY_RANGES.length := by
    have : QuestionGenerator.FREQUENCY_RANGES.length = 7 := by rfl
    omega
  rw [List.getD_eq_getElem?_getD, List.getElem?_eq_getElem hidx]
  exact List.getElem_mem hidx

/-- All seven generation bands have positive ordered endpoints inside the
audible range. -/
theorem frequency_ranges_bounds :
    ∀ range ∈ QuestionGenerator.FREQUENCY_RANGES,
      0 < range.min ∧ range.min ≤ range.max ∧ 20 ≤ range.min ∧ range.max ≤ 20000 := by
  decide

/-- The retry loop returns one of its (at most `fuel`) sampled candidates. -/
theorem sampleLoop_result (rand : ℕ → ℝ) (lo hi : ℕ) (ok : ℤ → Bool) :
    ∀ (fuel i : ℕ), 1 ≤ fuel →
      ∃ k, k < fuel ∧ (QuestionGenerator.sampleLoop rand lo hi ok i fuel).1 =
        MathUtils.randomLogFreq (rand (i + k)) lo hi := by
  intro fuel
  induction fuel with
  | zero => intro i h; omega
  | succ f ih =>
    intro i _
    cases f with
    | zero => exact ⟨0, by omega, by simp [QuestionGenerator.sampleLoop]⟩
    | succ f2 =>
      rw [QuestionGenerator.sampleLoop]
      by_cases hok : ok (MathUtils.randomLogFreq (rand i) lo hi) = true
      · exact ⟨0, by omega, by rw [if_pos hok]; simp⟩
      · rw [if_neg hok]
        obtain ⟨k, hk, he⟩ := ih (i + 1) (by omega)
        refine ⟨k + 1, by omega, ?_⟩
        have harg : i + 1 + k = i + (k + 1) := by omega
        rw [he, harg]

/-- If some candidate among the `fuel` draws passes the acceptance test,
the retry loop's result passes it. -/
theorem sampleLoop_ok_of_exists (rand : ℕ → ℝ) (lo hi : ℕ) (ok : ℤ → Bool) :
    ∀ (fuel i : ℕ),
      (∃ k, k < fuel ∧ ok (MathUtils.randomLogFreq (rand (i + k)) lo hi) = true) →
      ok (QuestionGenerator.sampleLoop rand lo hi ok i fuel).1 = true := by
  intro fuel
  induction fuel with
  | zero => intro i ⟨k, hk, _⟩; omega
  | succ f ih =>
    intro i ⟨k, hk, hokk⟩
    cases f with
    | zero =>
      have hk0 : k = 0 := by omega
      rw [hk0] at hokk
      simpa [QuestionGenerator.sampleLoop] using hokk
    | succ f2 =>
      rw [QuestionGenerator.sampleLoop]
      by_cases hok : ok (MathUtils.randomLogFreq (rand i) lo hi) = true
      · rw [if_pos hok]
        exact hok
      · rw [if_neg hok]
        apply ih (i + 1)
        cases k with
        | zero => exact absurd (by simpa using hokk) hok
        | succ k2 =>
          refine ⟨k2, by omega, ?_⟩
          have harg : i + 1 + k2 = i + (k2 + 1) := by omega
          rw [harg]
          exact hokk

/-- When every one of the `fuel` draws fails the acceptance test, the loop
falls through and accepts the last draw as-is. -/
theorem sampleLoop_exhaust (rand : ℕ → ℝ) (lo hi : ℕ) (ok : ℤ → Bool) :
    ∀ (fuel i : ℕ), 1 ≤ fuel →
      (∀ k, k < fuel → ok (MathUtils.randomLogFreq (rand (i + k)) lo hi) = false) →
      (QuestionGenerator.sampleLoop rand lo hi ok i fuel).1 =
        MathUtils.randomLogFreq (rand (i + (fuel - 1))) lo hi := by
  intro fuel
  induction fuel with
  | zero => intro i h; omega
  | succ f ih =>
    intro i _ hall
    cases f with
    | zero => simp [QuestionGenerator.sampleLoop]
    | succ f2 =>
      rw [QuestionGenerator.sampleLoop]
      have h0 : ok (MathUtils.randomLogFreq (rand i) lo hi) = false := by
        have := hall 0 (by omega)
        simpa using this
      rw [if_neg (by simp [h0])]
      have hrest : ∀ k, k < f2 + 1 →
          ok (MathUtils.randomLogFreq (rand (i + 1 + k)) lo hi) = false := by
        intro k hk
        have harg : i + 1 + k = i + (k + 1) := by omega
        rw [harg]
        exact hall (k + 1) (by omega)
      have := ih (i + 1) (by omega) hrest
      rw [this]
      have harg : i + 1 + (f2 + 1 - 1) = i + (f2 + 1 + 1 - 1) := by omega
      rw [harg]

/-- The acceptance test spelled out: the candidate keeps the configured gap
ratio to every frequency already chosen for this question and is not an
exact duplicate of any frequency in the used set. -/
theorem freqOk_iff (gap : ℚ) (chosen used : List ℤ) (c : ℤ) :
    QuestionGenerator.freqOk gap chosen used c = true ↔
      (∀ f ∈ chosen, gap ≤ ((max f c : ℤ) : ℚ) / ((min f c : ℤ) : ℚ)) ∧
        c ∉ used := by
  simp [QuestionGenerator.freqOk, not_lt]

/-- The per-question frequency loop adds exactly `slots` frequencies, each
drawn from one of the seven generation bands. -/
theorem genFreqs_spec (rand : ℕ → ℝ) (hr : ∀ n, 0 ≤ rand n ∧ rand n < 1) (gap : ℚ) :
    ∀ (slots i : ℕ) (chosen used : List ℤ),
      (QuestionGenerator.genFreqs rand gap slots i chosen used).1.length =
        chosen.length + slots ∧
      ∀ f ∈ (QuestionGenerator.genFreqs rand gap slots i chosen used).1,
        f ∈ chosen ∨ ∃ range ∈ QuestionGenerator.FREQUENCY_RANGES,
          (range.min : ℤ) ≤ f ∧ f ≤ (range.max : ℤ) := by
  intro slots
  induction slots with
  | zero =>
    intro i chosen used
    exact ⟨by simp [QuestionGenerator.genFreqs], fun f hf =>
      Or.inl (by simpa [QuestionGenerator.genFreqs] using hf)⟩
  | succ s ih =>
    intro i chosen used
    rw [QuestionGenerator.genFreqs]
    obtain ⟨hl, hm⟩ := ih
      (QuestionGenerator.sampleLoop rand (QuestionGenerator.pickRange (rand i)).min
        (QuestionGenerator.pickRange (rand i)).max
        (QuestionGenerator.freqOk gap chosen used) (i + 1) 100).2
      (chosen ++ [(QuestionGenerator.sampleLoop rand
        (QuestionGenerator.pickRange (rand i)).min
        (QuestionGenerator.pickRange (rand i)).max
        (QuestionGenerator.freqOk gap chosen used) (i + 1) 100).1])
      (used ++ [(QuestionGenerator.sampleLoop rand
        (QuestionGenerator.pickRange (rand i)).min
        (QuestionGenerator.pickRange (rand i)).max
        (QuestionGenerator.freqOk gap chosen used) (i + 1) 100).1])
    refine ⟨by rw [hl]; simp; omega, ?_⟩
    intro f hf
    rcases hm f hf with hc | hband
    · rcases List.mem_append.mp hc with h1 | h2
      · exact Or.inl h1
      · right
        have hfeq : f = (QuestionGenerator.sampleLoop rand
            (QuestionGenerator.pickRange (rand i)).min
            (QuestionGenerator.pickRange (rand i)).max
            (QuestionGenerator.freqOk gap chosen used) (i + 1) 100).1 := by
          simpa using h2
        obtain ⟨k, hk, he⟩ := sampleLoop_result rand
          (QuestionGenerator.pickRange (rand i)).min
          (QuestionGenerator.pickRange (rand i)).max
          (QuestionGenerator.freqOk gap chosen used) 100 (i + 1) (by omega)
        have hrmem : QuestionGenerator.pickRange (rand i) ∈
            QuestionGenerator.FREQUENCY_RANGES :=
          pickRange_mem (rand i) (hr i).1 (hr i).2
        obtain ⟨hpos, hminmax, _, _⟩ := frequency_ranges_bounds _ hrmem
        have hb := randomLogFreq_mem (rand (i + 1 + k)) (hr _).1 (hr _).2
          (QuestionGenerator.pickRange (rand i)).min
          (QuestionGenerator.pickRange (rand i)).max hpos hminmax
        exact ⟨QuestionGenerator.pickRange (rand i), hrmem,
          by rw [hfeq, he]; exact hb.1, by rw [hfeq, he]; exact hb.2⟩
    · exact Or.inr hband

/-- Under `NoExhaust`, every accepted frequency keeps the pairwise gap ratio
with the others of its question and is fresh with respect to the incoming
used set. -/
theorem genFreqs_noexhaust (rand : ℕ → ℝ) (gap : ℚ) :
    ∀ (slots i : ℕ) (chosen used : List ℤ),
      QuestionGenerator.NoExhaust rand gap slots i chosen used →
      (∀ f ∈ chosen, f ∈ used) →
      List.Pairwise
        (fun a b => gap ≤ ((max a b : ℤ) : ℚ) / ((min a b : ℤ) : ℚ)) chosen →
      List.Pairwise
        (fun a b => gap ≤ ((max a b : ℤ) : ℚ) / ((min a b : ℤ) : ℚ))
        (QuestionGenerator.genFreqs rand gap slots i chosen used).1 ∧
      ∀ f ∈ (QuestionGenerator.genFreqs rand gap slots i chosen used).1,
        f ∈ chosen ∨ f ∉ used := by
  intro slots
  induction slots with
  | zero =>
    intro i chosen used _ _ hpw
    exact ⟨by simpa [QuestionGenerator.genFreqs] using hpw, fun f hf =>
      Or.inl (by simpa [QuestionGenerator.genFreqs] using hf)⟩
  | succ s ih =>
    intro i chosen used hnx hsub hpw
    rw [QuestionGenerator.NoExhaust] at hnx
    rw [QuestionGenerator.genFreqs]
    obtain ⟨⟨k, hk, hokk⟩, htail⟩ := hnx
    have hok : QuestionGenerator.freqOk gap chosen used
        (QuestionGenerator.sampleLoop rand
          (QuestionGenerator.pickRange (rand i)).min
          (QuestionGenerator.pickRange (rand i)).max
          (QuestionGenerator.freqOk gap chosen used) (i + 1) 100).1 = true :=
      sampleLoop_ok_of_exists rand _ _ _ 100 (i + 1) ⟨k, hk, hokk⟩
    rw [freqOk_iff] at hok
    obtain ⟨hgap, hnmem⟩ := hok
    have hpw' : List.Pairwise
        (fun a b => gap ≤ ((max a b : ℤ) : ℚ) / ((min a b : ℤ) : ℚ))
        (chosen ++ [(QuestionGenerator.sampleLoop rand
          (QuestionGenerator.pickRange (rand i)).min
          (QuestionGenerator.pickRange (rand i)).max
          (QuestionGenerator.freqOk gap chosen used) (i + 1) 100).1]) := by
      rw [List.pairwise_append]
      refine ⟨hpw, List.pairwise_singleton _ _, ?_⟩
      intro a ha b hb
      have hb' : b = (QuestionGenerator.sampleLoop rand
          (QuestionGenerator.pickRange (rand i)).min
          (QuestionGenerator.pickRange (rand i)).max
          (QuestionGenerator.freqOk gap chosen used) (i + 1) 100).1 := by
        simpa using hb
      rw [hb']
      exact hgap a ha
    have hsub' : ∀ f ∈ chosen ++ [(QuestionGenerator.sampleLoop rand
        (QuestionGenerator.pickRange (rand i)).min
        (QuestionGenerator.pickRange (rand i)).max
        (QuestionGenerator.freqOk gap chosen used) (i + 1) 100).1],
        f ∈ used ++ [(QuestionGenerator.sampleLoop rand
          (QuestionGenerator.pickRange (rand i)).min
          (QuestionGenerator.pickRange (rand i)).max
          (QuestionGenerator.freqOk gap chosen used) (i + 1) 100).1] := by
      intro f hf
      rcases List.mem_append.mp hf with h | h
      · exact List.mem_append.mpr (Or.inl (hsub f h))
      · exact List.mem_append.mpr (Or.inr h)
    obtain ⟨hpwr, hmemr⟩ := ih _ _ _ htail hsub' hpw'
    refine ⟨hpwr, ?_⟩
    intro f hf
    rcases hmemr f hf with h | h
    · rcases List.mem_append.mp h with h1 | h2
      · exact Or.inl h1
      · right
        have hfe : f = (QuestionGenerator.sampleLoop rand
            (QuestionGenerator.pickRange (rand i)).min
            (QuestionGenerator.pickRange (rand i)).max
            (QuestionGenerator.freqOk gap chosen used) (i + 1) 100).1 := by
          simpa using h2
        rw [hfe]
        exact hnmem
    · right
      intro hfu
      exact h (List.mem_append.mpr (Or.inl hfu))

/-- A question's frequency list is the sorted chosen list, possibly
reversed (stereo left/right randomization). -/
theorem generateQuestion_frequencies (rand : ℕ → ℝ)
    (config : QuestionGenerator.DifficultyConfig) (used : List ℤ) (i : ℕ) :
    (QuestionGenerator.generateQuestion rand config used i).1.frequencies =
      ((QuestionGenerator.genFreqs rand config.minFreqGap config.freqCount
        i [] used).1.insertionSort (· ≤ ·)) ∨
    (QuestionGenerator.generateQuestion rand config used i).1.frequencies =
      ((QuestionGenerator.genFreqs rand config.minFreqGap config.freqCount
        i [] used).1.insertionSort (· ≤ ·)).reverse := by
  unfold QuestionGenerator.generateQuestion
  dsimp only
  split_ifs with h1 h2
  · exact Or.inr rfl
  · exact Or.inl rfl
  · exact Or.inl rfl

/-- Every generated question has exactly `freqCount` frequencies, each
inside one of the seven generation bands. -/
theorem generateQuestion_freq_spec (rand : ℕ → ℝ)
    (hr : ∀ n, 0 ≤ rand n ∧ rand n < 1)
    (config : QuestionGenerator.DifficultyConfig) (used : List ℤ) (i : ℕ) :
    (QuestionGenerator.generateQuestion rand config used i).1.frequencies.length =
      config.freqCount ∧
    ∀ fq ∈ (QuestionGenerator.generateQuestion rand config used i).1.frequencies,
      ∃ range ∈ QuestionGenerator.FREQUENCY_RANGES,
        (range.min : ℤ) ≤ fq ∧ fq ≤ (range.max : ℤ) := by
  obtain ⟨hl, hm⟩ := genFreqs_spec rand hr config.minFreqGap config.freqCount i [] used
  have hsl : ((QuestionGenerator.genFreqs rand config.minFreqGap config.freqCount
      i [] used).1.insertionSort (· ≤ ·)).length = config.freqCount := by
    rw [(List.perm_insertionSort _ _).length_eq, hl]
    simp
  have hml : ∀ fq ∈ (QuestionGenerator.genFreqs rand config.minFreqGap
      config.freqCount i [] used).1.insertionSort (· ≤ ·),
      ∃ range ∈ QuestionGenerator.FREQUENCY_RANGES,
        (range.min : ℤ) ≤ fq ∧ fq ≤ (range.max : ℤ) := by
    intro fq hfq
    rcases hm fq ((List.perm_insertionSort _ _).mem_iff.mp hfq) with hc | hband
    · exact absurd hc (List.not_mem_nil fq)
    · exact hband
  rcases generateQuestion_frequencies rand config used i with he | he <;> rw [he]
  · exact ⟨hsl, hml⟩
  · exact ⟨by rw [List.length_reverse, hsl], fun fq hfq =>
      hml fq (List.mem_reverse.mp hfq)⟩

/-- Swapping two positions keeps the length. -/
theorem swapIdx_length {α : Type*} (l : List α) (i j : ℕ) :
    (MathUtils.swapIdx l i j).length = l.length := by
  unfold MathUtils.swapIdx
  cases h1 : l[i]? <;> cases h2 : l[j]? <;> simp

/-- Swapping two positions keeps membership. -/
theorem swapIdx_mem {α : Type*} (l : List α) (i j : ℕ) (x : α)
    (hx : x ∈ MathUtils.swapIdx l i j) : x ∈ l := by
  unfold MathUtils.swapIdx at hx
  cases h1 : l[i]? with
  | none => rw [h1] at hx; exact hx
  | some a =>
    cases h2 : l[j]? with
    | none => rw [h1, h2] at hx; exact hx
    | some b =>
      rw [h1, h2] at hx
      rcases List.mem_or_eq_of_mem_set hx with hx2 | hx2
      · rcases List.mem_or_eq_of_mem_set hx2 with hx3 | hx3
        · exact hx3
        · rw [hx3]
          obtain ⟨hlt, he⟩ := List.getElem?_eq_some_iff.mp h2
          exact he ▸ List.getElem_mem hlt
      · rw [hx2]
        obtain ⟨hlt, he⟩ := List.getElem?_eq_some_iff.mp h1
        exact he ▸ List.getElem_mem hlt

/-- The Fisher–Yates loop keeps the length. -/
theorem shuffleAux_length {α : Type*} (rand : ℕ → ℝ) :
    ∀ (steps ri : ℕ) (l : List α),
      (MathUtils.shuffleAux rand ri l steps).1.length = l.length := by
  intro steps
  induction steps with
  | zero => intro ri l; rfl
  | succ s ih =>
    intro ri l
    rw [MathUtils.shuffleAux]
    rw [ih, swapIdx_length]

/-- The Fisher–Yates loop keeps membership. -/
theorem shuffleAux_mem {α : Type*} (rand : ℕ → ℝ) :
    ∀ (steps ri : ℕ) (l : List α) (x : α),
      x ∈ (MathUtils.shuffleAux rand ri l steps).1 → x ∈ l := by
  intro steps
  induction steps with
  | zero => intro ri l x hx; exact hx
  | succ s ih =>
    intro ri l x hx
    rw [MathUtils.shuffleAux] at hx
    exact swapIdx_mem _ _ _ _ (ih _ _ _ hx)

/-- The batch loop produces exactly one question per iteration. -/
theorem generateQuestionsAux_length (rand : ℕ → ℝ)
    (config : QuestionGenerator.DifficultyConfig) :
    ∀ (count i : ℕ) (qs : List QuestionGenerator.Question) (used : List ℤ),
      (QuestionGenerator.generateQuestionsAux rand config count i qs used).1.length =
        qs.length + count := by
  intro count
  induction count with
  | zero => intro i qs used; simp [QuestionGenerator.generateQuestionsAux]
  | succ n ih =>
    intro i qs used
    rw [QuestionGenerator.generateQuestionsAux, ih]
    simp
    omega

/-- Every question in the batch loop's output is an accumulated or a newly
generated question. -/
theorem generateQuestionsAux_mem (rand : ℕ → ℝ)
    (config : QuestionGenerator.DifficultyConfig)
    (P : QuestionGenerator.Question → Prop)
    (hgen : ∀ (used : List ℤ) (i : ℕ),
      P (QuestionGenerator.generateQuestion rand config used i).1) :
    ∀ (count i : ℕ) (qs : List QuestionGenerator.Question) (used : List ℤ),
      (∀ q ∈ qs, P q) →
      ∀ q ∈ (QuestionGenerator.generateQuestionsAux rand config count i qs used).1,
        P q := by
  intro count
  induction count with
  | zero =>
    intro i qs used hqs q hq
    exact hqs q (by simpa [QuestionGenerator.generateQuestionsAux] using hq)
  | succ n ih =>
    intro i qs used hqs q hq
    rw [QuestionGenerator.generateQuestionsAux] at hq
    refine ih _ _ _ ?_ q hq
    intro q2 hq2
    rcases List.mem_append.mp hq2 with h1 | h2
    · exact hqs q2 h1
    · have : q2 = (QuestionGenerator.generateQuestion rand config used i).1 := by
        simpa using h2
      rw [this]
      exact hgen used i

/-- C2: for every difficulty and question count, `generateQuestions` returns
exactly `count` questions; every question's frequency list has length equal
to the difficulty profile's `freqCount`, and every frequency lies inside one
of the 7 generation bands and hence in [20, 20000] Hz. -/
theorem generateQuestions_count_bands (rand : ℕ → ℝ)
    (hr : ∀ n, 0 ≤ rand n ∧ rand n < 1)
    (d : QuestionGenerator.Difficulty) (count i : ℕ) :
    (QuestionGenerator.generateQuestions rand d count i).length = count ∧
    ∀ q ∈ QuestionGenerator.generateQuestions rand d count i,
      q.frequencies.length = (QuestionGenerator.DIFFICULTY d).freqCount ∧
      ∀ fq ∈ q.frequencies,
        (∃ range ∈ QuestionGenerator.FREQUENCY_RANGES,
          (range.min : ℤ) ≤ fq ∧ fq ≤ (range.max : ℤ)) ∧
        (20 : ℤ) ≤ fq ∧ fq ≤ 20000 := by
  unfold QuestionGenerator.generateQuestions
  dsimp only
  constructor
  · unfold MathUtils.shuffle
    rw [shuffleAux_length, generateQuestionsAux_length]
    simp
  · intro q hq
    have hq2 : q ∈ (QuestionGenerator.generateQuestionsAux rand
        (QuestionGenerator.DIFFICULTY d) count i [] []).1 := by
      unfold MathUtils.shuffle at hq
      exact shuffleAux_mem _ _ _ _ _ hq
    have hP := generateQuestionsAux_mem rand (QuestionGenerator.DIFFICULTY d)
      (fun q => q.frequencies.length =
          (QuestionGenerator.DIFFICULTY d).freqCount ∧
        ∀ fq ∈ q.frequencies,
          ∃ range ∈ QuestionGenerator.FREQUENCY_RANGES,
            (range.min : ℤ) ≤ fq ∧ fq ≤ (range.max : ℤ))
      (fun used j => generateQuestion_freq_spec rand hr _ used j)
      count i [] [] (by simp) q hq2
    refine ⟨hP.1, ?_⟩
    intro fq hfq
    obtain ⟨range, hrmem, hlo, hhi⟩ := hP.2 fq hfq
    obtain ⟨_, _, h20, h20000⟩ := frequency_ranges_bounds range hrmem
    refine ⟨⟨range, hrmem, hlo, hhi⟩, ?_, ?_⟩
    · calc (20 : ℤ) ≤ (range.min : ℤ) := by exact_mod_cast h20
        _ ≤ fq := hlo
    · calc fq ≤ (range.max : ℤ) := hhi
        _ ≤ 20000 := by exact_mod_cast h20000

/-- Witness for C2 with the all-zeros random stream, medium difficulty,
10 questions. -/
theorem generateQuestions_count_bands_witness :
    (∀ n : ℕ, 0 ≤ (fun _ : ℕ => (0 : ℝ)) n ∧ (fun _ : ℕ => (0 : ℝ)) n < 1) ∧
    (QuestionGenerator.generateQuestions (fun _ => 0)
      QuestionGenerator.Difficulty.medium 10 0).length = 10 :=
  ⟨fun n => ⟨le_refl 0, by norm_num⟩,
    (generateQuestions_count_bands (fun _ => 0)
      (fun n => ⟨le_refl 0, by norm_num⟩)
      QuestionGenerator.Difficulty.medium 10 0).1⟩

/-- The frequency loop's output length needs no assumption on the random
stream: it is always `chosen.length + slots`. -/
theorem genFreqs_length (rand : ℕ → ℝ) (gap : ℚ) :
    ∀ (slots i : ℕ) (chosen used : List ℤ),
      (QuestionGenerator.genFreqs rand gap slots i chosen used).1.length =
        chosen.length + slots := by
  intro slots
  induction slots with
  | zero => intro i chosen used; simp [QuestionGenerator.genFreqs]
  | succ s ih =>
    intro i chosen used
    rw [QuestionGenerator.genFreqs, ih]
    simp
    omega

/-- A generated question always carries exactly `freqCount` frequencies,
whatever the random stream does — generation is total. -/
theorem generateQuestion_length (rand : ℕ → ℝ)
    (config : QuestionGenerator.DifficultyConfig) (used : List ℤ) (i : ℕ) :
    (QuestionGenerator.generateQuestion rand config used i).1.frequencies.length =
      config.freqCount := by
  rcases generateQuestion_frequencies rand config used i with he | he <;> rw [he]
  · rw [(List.perm_insertionSort _ _).length_eq, genFreqs_length]
    simp
  · rw [List.length_reverse, (List.perm_insertionSort _ _).length_eq,
      genFreqs_length]
    simp

/-- C3: when no retry loop of a question exhausts its 100 attempts, every
pair of frequencies within the generated question keeps the profile's
`minFrequencyGapRatio` and no frequency duplicates one used by a prior
question of the batch (the `used` set); generation is total — it always
returns a question with `freqCount` frequencies — and on exhaustion the
loop accepts its last (100th) candidate as-is. -/
theorem generateQuestion_gap_dedup :
    (∀ (rand : ℕ → ℝ) (config : QuestionGenerator.DifficultyConfig)
        (used : List ℤ) (i : ℕ),
      QuestionGenerator.NoExhaust rand config.minFreqGap config.freqCount i [] used →
      List.Pairwise (fun a b => config.minFreqGap ≤
          ((max a b : ℤ) : ℚ) / ((min a b : ℤ) : ℚ))
        (QuestionGenerator.generateQuestion rand config used i).1.frequencies ∧
      ∀ f ∈ (QuestionGenerator.generateQuestion rand config used i).1.frequencies,
        f ∉ used) ∧
    (∀ (rand : ℕ → ℝ) (config : QuestionGenerator.DifficultyConfig)
        (used : List ℤ) (i : ℕ),
      (QuestionGenerator.generateQuestion rand config used i).1.frequencies.length =
        config.freqCount) ∧
    (∀ (rand : ℕ → ℝ) (lo hi : ℕ) (ok : ℤ → Bool) (j : ℕ),
      (∀ k, k < 100 → ok (MathUtils.randomLogFreq (rand (j + k)) lo hi) = false) →
      (QuestionGenerator.sampleLoop rand lo hi ok j 100).1 =
        MathUtils.randomLogFreq (rand (j + 99)) lo hi) := by
  refine ⟨?_, generateQuestion_length, ?_⟩
  · intro rand config used i hnx
    obtain ⟨hpw, hfresh⟩ := genFreqs_noexhaust rand config.minFreqGap
      config.freqCount i [] used hnx (by simp) List.Pairwise.nil
    have hsym : Symmetric (fun a b : ℤ => config.minFreqGap ≤
        ((max a b : ℤ) : ℚ) / ((min a b : ℤ) : ℚ)) := by
      intro a b h
      rwa [max_comm, min_comm]
    rcases generateQuestion_frequencies rand config used i with he | he <;> rw [he]
    · refine ⟨(List.Perm.pairwise_iff (fun {a b} h => hsym h) (List.perm_insertionSort _ _)).mpr hpw, ?_⟩
      intro f hf
      rcases hfresh f ((List.perm_insertionSort _ _).mem_iff.mp hf) with h | h
      · exact absurd h (List.not_mem_nil f)
      · exact h
    · constructor
      · rw [List.pairwise_reverse]
        exact ((List.Perm.pairwise_iff (fun {a b} h => hsym h)
          (List.perm_insertionSort _ _)).mpr hpw).imp fun {a b} h => hsym h
      · intro f hf
        rcases hfresh f ((List.perm_insertionSort _ _).mem_iff.mp
            (List.mem_reverse.mp hf)) with h | h
        · exact absurd h (List.not_mem_nil f)
        · exact h
  · intro rand lo hi ok j hall
    exact sampleLoop_exhaust rand lo hi ok 100 j (by omega) hall

/-- The no-exhaustion predicate holds trivially for a single-frequency
question over empty state: the acceptance test passes vacuously. -/
theorem noExhaust_one_nil (rand : ℕ → ℝ) (gap : ℚ) (i : ℕ) :
    QuestionGenerator.NoExhaust rand gap 1 i [] [] := by
  show QuestionGenerator.NoExhaust rand gap (0 + 1) i [] []
  rw [QuestionGenerator.NoExhaust]
  refine ⟨⟨0, by omega, by simp [QuestionGenerator.freqOk]⟩, ?_⟩
  rw [QuestionGenerator.NoExhaust]
  trivial

/-- Witness for C3 at the all-zeros random stream, easy difficulty, empty
used set. -/
theorem generateQuestion_gap_dedup_witness :
    QuestionGenerator.NoExhaust (fun _ => 0)
      (QuestionGenerator.DIFFICULTY .easy).minFreqGap
      (QuestionGenerator.DIFFICULTY .easy).freqCount 0 [] [] ∧
    ∀ f ∈ (QuestionGenerator.generateQuestion (fun _ => 0)
        (QuestionGenerator.DIFFICULTY .easy) [] 0).1.frequencies,
      f ∉ ([] : List ℤ) :=
  ⟨noExhaust_one_nil (fun _ => 0) _ 0,
    (generateQuestion_gap_dedup.1 (fun _ => 0)
      (QuestionGenerator.DIFFICULTY .easy) [] 0
      (noExhaust_one_nil (fun _ => 0) _ 0)).2⟩
